import Mathlib

/-!
# Verification of `dmoj/commands/validate.py` (`ValidateCommand.validate_problem`)

A shallow embedding of the validator-execution pipeline of
`dmoj/commands/validate.py`.  Pure fragments of the Python function become Lean
functions; the stateful per-case loop becomes explicit state passing (the loop
state is the pair of the Python locals that survive across iterations:
`proc_output`, which the output-limit handler never rebinds, and `fail`).
External collaborators that are not part of this file's source
(`process.communicate`, `executor.populate_result`, the sandbox) enter as
oracle inputs describing one observed behaviour per case; where a claim needs
their semantics, a definition marked `Modelled from the spec:` supplies it.
Byte strings are `List Nat`; decoding (`utf8text`) preserves emptiness, so the
`or`-fallback of the feedback computation is modelled at the byte level.
-/

namespace Validate

/-! ## Data model (problem.py collaborators, as consumed by validate.py) -/

/-- Per-case configuration consumed by the loop body: `case.config.output_limit_length`
and `case.config.wall_time_factor` (lines 145, 149 of the source). -/
structure CaseConfig where
  output_limit_length : Nat
  wall_time_factor : ℚ
  deriving DecidableEq

/-- A single test case as `validate.py` consumes it. -/
structure TestCase where
  config : CaseConfig
  inputData : List Nat
  position : Nat
  deriving DecidableEq

/-- A node of `grader.cases()`: either a plain `TestCase` or a
`BatchedTestCase` carrying its member cases. -/
inductive RawCase where
  | flat (c : TestCase)
  | batched (cs : List TestCase)
  deriving DecidableEq

/-- The cases contributed by one node, in declaration order. -/
def underlying : RawCase → List TestCase
  | RawCase.flat c => [c]
  | RawCase.batched cs => cs

/-- Whether a node is a `BatchedTestCase`. -/
def isBatch : RawCase → Bool
  | RawCase.flat _ => false
  | RawCase.batched _ => true

/-- Number of batched nodes in a list of nodes. -/
def countBatches (l : List RawCase) : Nat :=
  (l.filter isBatch).length

/-! ## Flattening (source lines 105-113)

```
flattened_cases = []
batch_number = 0
for case in grader.cases():
    if isinstance(case, BatchedTestCase):
        batch_number += 1
        for batched_case in case.batched_cases:
            flattened_cases.append((batch_number, batched_case))
    else:
        flattened_cases.append((None, case))
```
-/

/-- The flattening loop with the running `batch_number` accumulator. -/
def flattenAux : Nat → List RawCase → List (Option Nat × TestCase)
  | _, [] => []
  | bn, RawCase.flat c :: rest => (none, c) :: flattenAux bn rest
  | bn, RawCase.batched cs :: rest =>
      cs.map (fun c => (some (bn + 1), c)) ++ flattenAux (bn + 1) rest

/-- The list `flattened_cases` as built by the source: `batch_number` starts at 0 and is
incremented before tagging each batch's members. -/
def flattenCases (l : List RawCase) : List (Option Nat × TestCase) :=
  flattenAux 0 l

/-- Spec-side description of the numbering: a batched node is tagged with
(number of batched nodes seen strictly before it) + 1, so numbers are assigned
in first-seen order starting at 1 and strictly increase along the traversal;
flat cases are tagged `none`; cases are emitted in declaration order.  The
first argument is the already-traversed prefix of nodes. -/
def numberedFlatten (seen : List RawCase) : List RawCase → List (Option Nat × TestCase)
  | [] => []
  | RawCase.flat c :: rest =>
      (none, c) :: numberedFlatten (seen ++ [RawCase.flat c]) rest
  | RawCase.batched cs :: rest =>
      cs.map (fun c => (some (countBatches seen + 1), c)) ++
        numberedFlatten (seen ++ [RawCase.batched cs]) rest

/-! ## Contiguous grouping (source line 127, `itertools.groupby` with
`key=itemgetter(0)`): groups are maximal contiguous runs of equal key. -/

/-- Worker for `groupRuns`: `k` is the current run's key, `acc` the current
run's elements in reverse. -/
def groupRunsAux {α β : Type} [DecidableEq β] (key : α → β) :
    β → List α → List α → List (β × List α)
  | k, acc, [] => [(k, acc.reverse)]
  | k, acc, x :: xs =>
      if key x = k then groupRunsAux key k (x :: acc) xs
      else (k, acc.reverse) :: groupRunsAux key (key x) [x] xs

/-- Model of `itertools.groupby(l, key)`: contiguous runs of equal key, in order. -/
def groupRuns {α β : Type} [DecidableEq β] (key : α → β) : List α → List (β × List α)
  | [] => []
  | x :: xs => groupRunsAux key (key x) [x] xs


/-! ## Demo cases for the concrete parts of the claims -/

/-- A default per-case configuration for concrete instances. -/
def demoCfg : CaseConfig := { output_limit_length := 25165824, wall_time_factor := 4 }

/-- Concrete test case `i`. -/
def demoCase (i : Nat) : TestCase := { config := demoCfg, inputData := [], position := i }

/-- A raw tree whose flattening carries batch numbers
`[none, 1, 1, 2, 2, none]`: a flat case, two batches of two, a flat case. -/
def demoRaw : List RawCase :=
  [RawCase.flat (demoCase 1),
   RawCase.batched [demoCase 1, demoCase 2],
   RawCase.batched [demoCase 1, demoCase 2],
   RawCase.flat (demoCase 2)]

/-! ## Byte strings and the feedback computation (source lines 159-162)

```
feedback = (
    utf8text({'stdout': proc_output, 'stderr': proc_error}[read_feedback_from].rstrip())
    or result.feedback
)
```

Bytes are `List Nat`.  `utf8text` maps empty bytes to the empty string and
non-empty bytes to a non-empty string (decoding with replacement), so the
Python `or` reduces, at the byte level, to: the trimmed stream if non-empty,
else `result.feedback`. -/

/-- The bytes Python's `bytes.rstrip()` strips: `b' \t\n\r\x0b\x0c'`. -/
def isWSByte (b : Nat) : Bool :=
  b == 9 || b == 10 || b == 11 || b == 12 || b == 13 || b == 32

/-- Python `bytes.rstrip()`: drop trailing whitespace bytes. -/
def rstrip (l : List Nat) : List Nat :=
  (l.reverse.dropWhile isWSByte).reverse

/-- The designated feedback stream (`read_feedback_from`). -/
inductive FStream where
  | stdout
  | stderr
  deriving DecidableEq

/-- The dict lookup `{'stdout': proc_output, 'stderr': proc_error}[read_feedback_from]`. -/
def streamSel (rf : FStream) (procOutput procError : List Nat) : List Nat :=
  match rf with
  | FStream.stdout => procOutput
  | FStream.stderr => procError

/-- The feedback computed at source lines 159-162, given the two captured
streams and `result.feedback` as populated by the executor. -/
def feedbackSel (rf : FStream) (procOutput procError resFeedback : List Nat) : List Nat :=
  let trimmed := rstrip (streamSel rf procOutput procError)
  if trimmed = [] then resFeedback else trimmed

/-! ## One case of the loop (source lines 133-171)

The external process behaviour is an oracle per case: what
`process.communicate` does, and what flag / feedback `executor.populate_result`
writes into the `Result` for the reaped process.  `communicate` either returns
both streams, raises `OutputLimitExceeded` (its internally captured partial
streams never reach the caller), or raises some other exception. -/

/-- Observed behaviour of `process.communicate` for one case.  On
`OutputLimitExceeded` the channel had captured `truncOut`/`truncErr` so far;
the exception discards them from the caller's point of view. -/
inductive CommOutcome where
  | ok (out err : List Nat)
  | ole (truncOut truncErr : List Nat)
  | exn (msg : String)
  deriving DecidableEq

/-- Oracle for one case: the `communicate` behaviour together with the
`result_flag` (an int bitmask; truthy iff non-zero) and `result.feedback`
that `executor.populate_result` writes for the reaped process. -/
structure ProcBehavior where
  comm : CommOutcome
  flag : Nat
  resFeedback : List Nat
  deriving DecidableEq

/-- The Python exceptions that can escape one iteration of the case loop. -/
inductive PyError where
  | unboundLocal
  | uncaught (msg : String)
  deriving DecidableEq

/-- What one iteration records for its case: `result.result_flag` and the
computed feedback. -/
structure CaseRecord where
  flag : Nat
  feedback : List Nat
  deriving DecidableEq

/-- Side effects of one iteration, in order. -/
inductive Event where
  | launch
  | kill
  | wait
  | populate
  | verdict
  deriving DecidableEq

/-- One iteration of the case loop (source lines 133-171), as the source's
`try`/`except OutputLimitExceeded`/`finally` executes it.  `prevOut` is the
value of the Python local `proc_output` left over from an earlier iteration
(`none` if never bound).  Returns the ordered side effects and either the
escaping exception or the case record plus the new `proc_output` binding:

* normal completion rebinds both locals and proceeds to scoring;
* on `OutputLimitExceeded` the handler sets `proc_error = b''` and kills the
  process, the `finally` reaps it, `populate_result` runs, and then the
  feedback dict reads `proc_output` — the stale previous binding if present,
  otherwise an `UnboundLocalError` escapes;
* any other exception runs only the `finally` (reap) and escapes. -/
def caseExec (rf : FStream) (b : ProcBehavior) (prevOut : Option (List Nat)) :
    List Event × Except PyError (CaseRecord × Option (List Nat)) :=
  match b.comm with
  | CommOutcome.ok out err =>
      ([Event.launch, Event.wait, Event.populate, Event.verdict],
       Except.ok ({ flag := b.flag, feedback := feedbackSel rf out err b.resFeedback },
                  some out))
  | CommOutcome.ole _ _ =>
      match prevOut with
      | none =>
          ([Event.launch, Event.kill, Event.wait, Event.populate],
           Except.error PyError.unboundLocal)
      | some out0 =>
          ([Event.launch, Event.kill, Event.wait, Event.populate, Event.verdict],
           Except.ok ({ flag := b.flag, feedback := feedbackSel rf out0 [] b.resFeedback },
                      some out0))
  | CommOutcome.exn m =>
      ([Event.launch, Event.wait], Except.error (PyError.uncaught m))

/-- The case loop of source lines 125-173, threading the surviving locals
(`proc_output`, `fail`): each iteration runs `caseExec`; a flagged result sets
`fail = 1`; an escaping exception aborts the whole loop. -/
def runCasesAux (rf : FStream) :
    Option (List Nat) → Nat → List ProcBehavior → Except PyError (List CaseRecord × Nat)
  | _, fl, [] => Except.ok ([], fl)
  | prevOut, fl, b :: bs =>
      match (caseExec rf b prevOut).2 with
      | Except.error e => Except.error e
      | Except.ok (rec, prevOut2) =>
          match runCasesAux rf prevOut2 (if rec.flag ≠ 0 then 1 else fl) bs with
          | Except.error e => Except.error e
          | Except.ok (rs, f) => Except.ok (rec :: rs, f)

/-- The full case loop: `proc_output` starts unbound and `fail` starts 0. -/
def validateCases (rf : FStream) (bs : List ProcBehavior) :
    Except PyError (List CaseRecord × Nat) :=
  runCasesAux rf none 0 bs

/-! ## Verdict Model pieces that live outside src/ (`Result`,
`executor.populate_result`), modelled from the spec where a claim needs them. -/

/-- The non-zero-exit / runtime-error flag bit. -/
def flagIR : Nat := 2

/-- Modelled from the spec: `populate_result` (not under src/) computes the
`result_flag` from the reaped process; per the spec's Verdict Model, a run
that stays within all limits and raises no output-limit condition gets the
non-zero-exit flag when the exit status is non-zero and an empty flag set
otherwise. -/
def specPopulateFlag (exitCode : Int) : Nat :=
  if exitCode = 0 then 0 else flagIR

/-- Flag set of the spec's Verdict Model, in its precedence order. -/
structure FlagSet where
  ole : Bool
  wall : Bool
  tle : Bool
  mle : Bool
  ir : Bool
  deriving DecidableEq

/-- Modelled from the spec: the canonical textual description (as bytes) of
each verdict code of the Verdict Model. -/
def descOf : Nat → List Nat
  | 0 => [79, 76, 69]          -- output-limit-exceeded
  | 1 => [87, 84, 76, 69]      -- wall-time-exceeded
  | 2 => [84, 76, 69]          -- time-limit-exceeded
  | 3 => [77, 76, 69]          -- memory-limit-exceeded
  | 4 => [73, 82]              -- non-zero-exit / runtime error
  | _ => [65, 67]              -- accepted

/-- Modelled from the spec: `result.feedback` as `populate_result` (not under
src/) leaves it — the canonical textual description of the first-matching
flag, checked in the spec's fixed precedence order
(output-limit, wall-time, cpu-time, memory, non-zero-exit, accepted). -/
def firstCodeDesc (f : FlagSet) : List Nat :=
  if f.ole then descOf 0
  else if f.wall then descOf 1
  else if f.tle then descOf 2
  else if f.mle then descOf 3
  else if f.ir then descOf 4
  else descOf 5

/-! ## Resource limits (source lines 74-76 and 136-146)

```
time_limit = validator_config.get('time', env.generator_time_limit)
memory_limit = validator_config.get('memory', env.generator_memory_limit)
...
process = executor.launch(..., time=time_limit, memory=memory_limit, ...,
                          wall_time=case.config.wall_time_factor * time_limit)
```
-/

/-- The validator configuration keys consulted for limits. -/
structure VConfig where
  time : Option ℚ
  memory : Option Nat
  deriving DecidableEq

/-- The `env.generator_*` defaults. -/
structure JudgeEnv where
  generator_time_limit : ℚ
  generator_memory_limit : Nat
  deriving DecidableEq

/-- Resolution of `validator_config.get('time', env.generator_time_limit)`. -/
def resolvedTimeLimit (vc : VConfig) (e : JudgeEnv) : ℚ :=
  vc.time.getD e.generator_time_limit

/-- Resolution of `validator_config.get('memory', env.generator_memory_limit)`. -/
def resolvedMemoryLimit (vc : VConfig) (e : JudgeEnv) : Nat :=
  vc.memory.getD e.generator_memory_limit

/-- The resource arguments of one `executor.launch` call. -/
structure LaunchParams where
  time : ℚ
  memory : Nat
  wall_time : ℚ
  deriving DecidableEq

/-- The launch arguments for one case, given the problem-level limits
(source lines 137-146). -/
def launchParamsFor (tl : ℚ) (ml : Nat) (c : TestCase) : LaunchParams :=
  { time := tl, memory := ml, wall_time := c.config.wall_time_factor * tl }

/-- The launch arguments of a whole problem run: the limits are computed once,
before the loop, and every iteration reuses them. -/
def problemLaunches (vc : VConfig) (e : JudgeEnv) (cases : List TestCase) :
    List LaunchParams :=
  cases.map (launchParamsFor (resolvedTimeLimit vc e) (resolvedMemoryLimit vc e))

/-! ## The communicate caps (source lines 148-150)

```
process.communicate(input, outlimit=case.config.output_limit_length, errlimit=1048576)
```
-/

/-- The two cap arguments of the `communicate` call for one case. -/
structure CommCaps where
  outlimit : Nat
  errlimit : Nat
  deriving DecidableEq

/-- The caps passed for a given case: `outlimit` from the case configuration,
`errlimit` the literal `1048576`. -/
def communicateCaps (c : TestCase) : CommCaps :=
  { outlimit := c.config.output_limit_length, errlimit := 1048576 }

/-- Modelled from the spec: `communicate` (not under src/) enforces its
`outlimit` argument on the stdout stream and its `errlimit` argument on the
stderr stream; this maps each stream to the cap the call site sets for it. -/
def capOfStream (c : TestCase) : FStream → Nat
  | FStream.stdout => (communicateCaps c).outlimit
  | FStream.stderr => (communicateCaps c).errlimit

/-! ## The configuration gate (source lines 59-118)

The early-return checks of `validate_problem`, in source order: missing/empty
config or missing `validator` key, unsupported language, unsupported feedback
option, malformed source declaration (each: skip, return 0), then compilation
(failure: return 1), then the contrib-module check (unknown: return 1). -/

/-- The `validator_config.source` declaration: a string, a list, or anything else. -/
inductive SourceDecl where
  | str (s : String)
  | list (ls : List String)
  | other
  deriving DecidableEq

/-- The problem/validator configuration fields the gate consults.
`feedback` and `contribType` are `.get`s with defaults. -/
structure PConfig where
  configTruthy : Bool
  hasValidator : Bool
  language : String
  feedback : Option String
  source : SourceDecl
  contribType : Option String
  deriving DecidableEq

/-- Outcome of the gate: an early `return n`, or fall through to the case
loop. -/
inductive GateOutcome where
  | ret (n : Nat)
  | runCases
  deriving DecidableEq

/-- The early-return structure of `validate_problem` (source lines 65-118),
with the supported-language set, the contrib-module registry, and the outcome
of `compile_with_auxiliary_files` as inputs. -/
def validateGate (supportedLangs contribMods : List String) (compileOk : Bool)
    (cfg : PConfig) : GateOutcome :=
  if !cfg.configTruthy || !cfg.hasValidator then GateOutcome.ret 0
  else if !(supportedLangs.contains cfg.language) then GateOutcome.ret 0
  else if !(["stdout", "stderr"].contains (cfg.feedback.getD "stderr")) then GateOutcome.ret 0
  else
    match cfg.source with
    | SourceDecl.other => GateOutcome.ret 0
    | _ =>
        if !compileOk then GateOutcome.ret 1
        else if !(contribMods.contains (cfg.contribType.getD "default")) then GateOutcome.ret 1
        else GateOutcome.runCases

/-- Function `validate_problem` end to end: the gate's early return, or the case
loop's `fail` value (an uncaught exception from the loop escapes). -/
def validate_problem (supportedLangs contribMods : List String) (compileOk : Bool)
    (cfg : PConfig) (rf : FStream) (bs : List ProcBehavior) : Except PyError Nat :=
  match validateGate supportedLangs contribMods compileOk cfg with
  | GateOutcome.ret n => Except.ok n
  | GateOutcome.runCases =>
      match validateCases rf bs with
      | Except.error e => Except.error e
      | Except.ok rsf => Except.ok rsf.2

/-! ## Concrete instances used by the per-claim theorems and witnesses -/

/-- The claim's five-case example: the validator exits 0 on cases 1,2,4,5 and
exits 1 on case 3, always within limits and with no output on either stream. -/
def behaviors5 : List ProcBehavior :=
  ([0, 0, 1, 0, 0] : List Int).map fun e =>
    { comm := CommOutcome.ok [] [], flag := specPopulateFlag e, resFeedback := [] }

/-- The records the loop produces on `behaviors5`. -/
def recs5 : List CaseRecord :=
  [⟨0, []⟩, ⟨0, []⟩, ⟨flagIR, []⟩, ⟨0, []⟩, ⟨0, []⟩]

/-- A case whose exchange raises `OutputLimitExceeded` after capturing partial
stdout `[72]` and partial stderr `[65]`. -/
def bOleW : ProcBehavior :=
  { comm := CommOutcome.ole [72] [65], flag := 8, resFeedback := [] }

/-- A case whose exchange raises a non-output-limit exception. -/
def bExnW : ProcBehavior :=
  { comm := CommOutcome.exn "boom", flag := 0, resFeedback := [] }

/-- A case whose exchange completes normally with empty streams and a clean
exit. -/
def bOkW : ProcBehavior :=
  { comm := CommOutcome.ok [] [], flag := 0, resFeedback := [] }

/-- A flag set whose only member is the non-zero-exit flag. -/
def fsW : FlagSet := ⟨false, false, false, false, true⟩

/-- A well-formed problem configuration (every gate check passes). -/
def cfgOkW : PConfig :=
  { configTruthy := true, hasValidator := true, language := "PY3",
    feedback := none, source := SourceDecl.str "validator.py", contribType := none }

/-- Configuration with no validator declared. -/
def cfgNoValW : PConfig := { cfgOkW with hasValidator := false }

/-- Configuration with an unsupported language. -/
def cfgBadLangW : PConfig := { cfgOkW with language := "COBOL" }

/-- Configuration with an unsupported feedback-stream option. -/
def cfgBadFbW : PConfig := { cfgOkW with feedback := some "socket" }

/-- Configuration with a malformed source declaration. -/
def cfgBadSrcW : PConfig := { cfgOkW with source := SourceDecl.other }

/-- Configuration with an unrecognized contrib-module identifier. -/
def cfgBadContribW : PConfig := { cfgOkW with contribType := some "bogus" }

/-- Validator configuration for the limits witness: no `time` key, an explicit
`memory` key. -/
def vcW : VConfig := { time := none, memory := some 262144 }

/-- Environment defaults for the limits witness. -/
def envW : JudgeEnv := { generator_time_limit := 20, generator_memory_limit := 524288 }

/-- A test case with wall-time factor 4 for the limits witness. -/
def caseW : TestCase :=
  { config := { output_limit_length := 100, wall_time_factor := 4 }, inputData := [], position := 1 }

/-- The launch parameters `validate_problem` computes for `caseW`. -/
def pW : LaunchParams :=
  launchParamsFor (resolvedTimeLimit vcW envW) (resolvedMemoryLimit vcW envW) caseW

theorem countBatches_append (l m : List RawCase) :
    countBatches (l ++ m) = countBatches l + countBatches m := by
  simp [countBatches, List.filter_append]

theorem countBatches_flat (l : List RawCase) (c : TestCase) :
    countBatches (l ++ [RawCase.flat c]) = countBatches l := by
  simp [countBatches_append, countBatches, isBatch]

theorem countBatches_batched (l : List RawCase) (cs : List TestCase) :
    countBatches (l ++ [RawCase.batched cs]) = countBatches l + 1 := by
  simp [countBatches_append, countBatches, isBatch]

theorem flattenAux_eq_numberedFlatten (l : List RawCase) :
    ∀ seen : List RawCase, flattenAux (countBatches seen) l = numberedFlatten seen l := by
  induction l with
  | nil => intro seen; rfl
  | cons x rest ih =>
      intro seen
      cases x with
      | flat c =>
          have h := ih (seen ++ [RawCase.flat c])
          rw [countBatches_flat] at h
          simp [flattenAux, numberedFlatten, h]
      | batched cs =>
          have h := ih (seen ++ [RawCase.batched cs])
          rw [countBatches_batched] at h
          simp [flattenAux, numberedFlatten, h]

theorem flattenAux_map_snd (l : List RawCase) :
    ∀ bn : Nat, (flattenAux bn l).map Prod.snd = (l.map underlying).flatten := by
  induction l with
  | nil => intro bn; rfl
  | cons x rest ih =>
      intro bn
      cases x with
      | flat c => simp [flattenAux, underlying, ih]
      | batched cs => simp [flattenAux, underlying, ih]

theorem groupRunsAux_join {α β : Type} [DecidableEq β] (key : α → β) (xs : List α) :
    ∀ (k : β) (acc : List α),
      ((groupRunsAux key k acc xs).map Prod.snd).flatten = acc.reverse ++ xs := by
  induction xs with
  | nil => intro k acc; simp [groupRunsAux]
  | cons x xs ih =>
      intro k acc
      by_cases h : key x = k
      · simp [groupRunsAux, h, ih]
      · simp [groupRunsAux, h, ih]

theorem groupRunsAux_mem {α β : Type} [DecidableEq β] (key : α → β) (xs : List α) :
    ∀ (k : β) (acc : List α), acc ≠ [] → (∀ a ∈ acc, key a = k) →
      ∀ r ∈ groupRunsAux key k acc xs, r.2 ≠ [] ∧ ∀ a ∈ r.2, key a = r.1 := by
  induction xs with
  | nil =>
      intro k acc hne hkey r hr
      simp only [groupRunsAux, List.mem_singleton] at hr
      subst hr
      constructor
      · simpa using hne
      · intro a ha
        exact hkey a (by simpa using ha)
  | cons x xs ih =>
      intro k acc hne hkey r hr
      by_cases h : key x = k
      · rw [groupRunsAux, if_pos h] at hr
        exact ih k (x :: acc) (by simp)
          (by intro a ha; rcases List.mem_cons.mp ha with rfl | ha
              · exact h
              · exact hkey a ha) r hr
      · rw [groupRunsAux, if_neg h] at hr
        rcases List.mem_cons.mp hr with rfl | hr
        · constructor
          · simpa using hne
          · intro a ha
            exact hkey a (by simpa using ha)
        · exact ih (key x) [x] (by simp) (by simp) r hr

theorem groupRunsAux_head {α β : Type} [DecidableEq β] (key : α → β) (xs : List α) :
    ∀ (k : β) (acc : List α), ∃ t rest, groupRunsAux key k acc xs = (k, t) :: rest := by
  induction xs with
  | nil => intro k acc; exact ⟨acc.reverse, [], rfl⟩
  | cons x xs ih =>
      intro k acc
      by_cases h : key x = k
      · rw [groupRunsAux, if_pos h]; exact ih k (x :: acc)
      · rw [groupRunsAux, if_neg h]
        exact ⟨acc.reverse, groupRunsAux key (key x) [x] xs, rfl⟩

theorem groupRunsAux_chain {α β : Type} [DecidableEq β] (key : α → β) (xs : List α) :
    ∀ (k : β) (acc : List α),
      List.Chain' (fun a b => a.1 ≠ b.1) (groupRunsAux key k acc xs) := by
  induction xs with
  | nil => intro k acc; simp [groupRunsAux]
  | cons x xs ih =>
      intro k acc
      by_cases h : key x = k
      · rw [groupRunsAux, if_pos h]; exact ih k (x :: acc)
      · rw [groupRunsAux, if_neg h]
        obtain ⟨t, rest, heq⟩ := groupRunsAux_head key xs (key x) [x]
        rw [heq]
        refine List.Chain'.cons ?_ (heq ▸ ih (key x) [x])
        exact fun hk => h hk.symm


/-- Claim C9: For every test-case tree walked by the flattening loop (source
lines 105-113): the loop's result equals the spec-side numbering in which each
batched group is tagged with (batches seen before it) + 1 — so batch numbers
are assigned in first-seen order starting at 1 and strictly increase along the
traversal, and flat cases are tagged with the sentinel `none` — and the
flattened sequence lists the underlying cases in declaration order. -/
theorem flatten_batch_numbering (l : List RawCase) :
    flattenCases l = numberedFlatten [] l ∧
    (flattenCases l).map Prod.snd = (l.map underlying).flatten := by
  constructor
  · have h := flattenAux_eq_numberedFlatten l []
    simpa [flattenCases, countBatches] using h
  · exact flattenAux_map_snd l 0

/-- Claim C3: The orchestrator's grouping (source line 127,
`groupby(flattened_cases, key=itemgetter(0))`) forms maximal contiguous runs of
equal batch number: the runs concatenate back to the flattened sequence in
order, every run is non-empty and constant in its key, adjacent runs carry
different keys (so non-adjacent occurrences of the same value are never
coalesced); and on the flattened sequence with batch numbers
`[none, 1, 1, 2, 2, none]` it emits exactly the four runs
`(none,1), (some 1,2), (some 2,2), (none,1)`. -/
theorem groupby_contiguous_runs :
    (∀ l : List (Option Nat × TestCase),
        ((groupRuns Prod.fst l).map Prod.snd).flatten = l ∧
        (∀ r ∈ groupRuns Prod.fst l, r.2 ≠ [] ∧ ∀ a ∈ r.2, a.1 = r.1) ∧
        List.Chain' (fun a b => a.1 ≠ b.1) (groupRuns Prod.fst l)) ∧
    (groupRuns Prod.fst (flattenCases demoRaw)).map (fun r => (r.1, r.2.length)) =
      [(none, 1), (some 1, 2), (some 2, 2), (none, 1)] := by
  constructor
  · intro l
    refine ⟨?_, ?_, ?_⟩
    · cases l with
      | nil => rfl
      | cons x xs => simpa [groupRuns] using groupRunsAux_join Prod.fst xs (x.1) [x]
    · cases l with
      | nil => intro r hr; simp [groupRuns] at hr
      | cons x xs =>
          intro r hr
          exact groupRunsAux_mem Prod.fst xs (x.1) [x] (by simp) (by simp) r hr
    · cases l with
      | nil => simp [groupRuns]
      | cons x xs => exact groupRunsAux_chain Prod.fst xs (x.1) [x]
  · rfl

/-! ## The loop's failure flag (source lines 125-173) -/

theorem runCasesAux_ok_fail (rf : FStream) (bs : List ProcBehavior) :
    ∀ (prevOut : Option (List Nat)) (fl : Nat) (recs : List CaseRecord) (f : Nat),
      (fl = 0 ∨ fl = 1) →
      runCasesAux rf prevOut fl bs = Except.ok (recs, f) →
      (f = 1 ↔ (fl = 1 ∨ ∃ r ∈ recs, r.flag ≠ 0)) ∧ (f = 0 ∨ f = 1) := by
  induction bs with
  | nil =>
      intro prevOut fl recs f hfl h
      simp only [runCasesAux, Except.ok.injEq, Prod.mk.injEq] at h
      obtain ⟨rfl, rfl⟩ := h
      constructor
      · simp only [List.not_mem_nil, false_and, exists_false, or_false]
      · exact hfl
  | cons b bs ih =>
      intro prevOut fl recs f hfl h
      rw [runCasesAux] at h
      rcases h1 : (caseExec rf b prevOut).2 with e | ⟨rec, prevOut2⟩
      · rw [h1] at h; exact absurd h (by simp)
      · rw [h1] at h
        dsimp only at h
        rcases h2 : runCasesAux rf prevOut2 (if rec.flag ≠ 0 then 1 else fl) bs with e | ⟨rs, f'⟩
        · rw [h2] at h; exact absurd h (by simp)
        · rw [h2] at h
          dsimp only at h
          simp only [Except.ok.injEq, Prod.mk.injEq] at h
          obtain ⟨rfl, rfl⟩ := h
          have hfl' : (if rec.flag ≠ 0 then 1 else fl) = 0 ∨
              (if rec.flag ≠ 0 then 1 else fl) = 1 := by
            by_cases hr : rec.flag ≠ 0
            · simp [hr]
            · simpa [hr] using hfl
          obtain ⟨hiff, hf01⟩ := ih prevOut2 (if rec.flag ≠ 0 then 1 else fl) rs f' hfl' h2
          refine ⟨?_, hf01⟩
          rw [hiff]
          by_cases hr : rec.flag = 0
          · have hif : (if rec.flag ≠ 0 then 1 else fl) = fl := if_neg (fun hc => hc hr)
            rw [hif]
            constructor
            · rintro (hfl1 | ⟨r, hm, hf⟩)
              · exact Or.inl hfl1
              · exact Or.inr ⟨r, List.mem_cons_of_mem rec hm, hf⟩
            · rintro (hfl1 | ⟨r, hm, hf⟩)
              · exact Or.inl hfl1
              · rcases List.mem_cons.mp hm with rfl | hm'
                · exact absurd hr hf
                · exact Or.inr ⟨r, hm', hf⟩
          · have hif : (if rec.flag ≠ 0 then 1 else fl) = 1 := if_pos hr
            rw [hif]
            constructor
            · intro _
              exact Or.inr ⟨rec, List.mem_cons_self rec rs, hr⟩
            · intro _
              exact Or.inl rfl

/-- Claim C1: When the gate passes and the case loop completes, `validate_problem`
returns the loop's `fail` value, and that value is 1 iff at least one executed
case produced a truthy (non-zero) `result_flag` and 0 iff none did; moreover on
the 5-case example where only case 3's validator exits non-zero, the loop
returns `fail = 1` and records the non-zero-exit flag exactly on case 3, with
cases 1,2,4,5 carrying the empty (accepted) flag. -/
theorem validate_problem_fail_iff_flag (sup con : List String) (cfg : PConfig)
    (rf : FStream) (bs : List ProcBehavior) (recs : List CaseRecord) (f : Nat)
    (hgate : validateGate sup con true cfg = GateOutcome.runCases)
    (hrun : validateCases rf bs = Except.ok (recs, f)) :
    (validate_problem sup con true cfg rf bs = Except.ok f ∧
      (f = 1 ↔ ∃ r ∈ recs, r.flag ≠ 0) ∧ (f = 0 ↔ ∀ r ∈ recs, r.flag = 0)) ∧
    (validateCases FStream.stderr behaviors5 = Except.ok (recs5, 1) ∧
      recs5.map CaseRecord.flag = [0, 0, flagIR, 0, 0] ∧ flagIR ≠ 0) := by
  obtain ⟨hiff, hf01⟩ := runCasesAux_ok_fail rf bs none 0 recs f (Or.inl rfl) hrun
  refine ⟨⟨?_, ?_, ?_⟩, rfl, by decide, by decide⟩
  · simp [validate_problem, hgate, validateCases] at hrun ⊢
    simp [hrun]
  · rw [hiff]; simp
  · constructor
    · intro h0
      intro r hr
      by_contra hne
      have : f = 1 := hiff.mpr (Or.inr ⟨r, hr, hne⟩)
      omega
    · intro hall
      rcases hf01 with h0 | h1
      · exact h0
      · exfalso
        rcases hiff.mp h1 with h | ⟨r, hr, hne⟩
        · omega
        · exact hne (hall r hr)

/-- Claim C1 witness: The theorem applied at the example concrete run. -/
theorem validate_problem_fail_iff_flag_app :
    validate_problem ["PY3"] ["default"] true cfgOkW FStream.stderr behaviors5 =
      Except.ok 1 :=
  (validate_problem_fail_iff_flag ["PY3"] ["default"] cfgOkW FStream.stderr behaviors5
    recs5 1 (by decide) rfl).1.1

/-- Claim C7: On every exit path of the exchange — normal completion,
output-limit kill, or an exception raised during `communicate` — the
`finally: process.wait()` reaps the launched process, and the reap happens
strictly before any verdict finalization: the event trace always contains
`wait`, and splits as `pre ++ wait :: post` where `pre` holds the launch but
no verdict. -/
theorem reap_before_verdict_all_paths (rf : FStream) (b : ProcBehavior)
    (prevOut : Option (List Nat)) :
    Event.wait ∈ (caseExec rf b prevOut).1 ∧
    ∃ pre post, (caseExec rf b prevOut).1 = pre ++ Event.wait :: post ∧
      Event.verdict ∉ pre ∧ Event.launch ∈ pre := by
  rcases b with ⟨comm, flag, resFb⟩
  cases comm with
  | ok out err =>
      exact ⟨by simp [caseExec],
        ⟨[Event.launch], [Event.populate, Event.verdict], rfl, by decide, by decide⟩⟩
  | ole tOut tErr =>
      cases prevOut with
      | none =>
          exact ⟨by simp [caseExec],
            ⟨[Event.launch, Event.kill], [Event.populate], rfl, by decide, by decide⟩⟩
      | some out0 =>
          exact ⟨by simp [caseExec],
            ⟨[Event.launch, Event.kill], [Event.populate, Event.verdict], rfl,
              by decide, by decide⟩⟩
  | exn m =>
      exact ⟨by simp [caseExec], ⟨[Event.launch], [], rfl, by decide, by decide⟩⟩

/-- Claim C2 counterexample: At the concrete input where the very first case's
exchange raises `OutputLimitExceeded` (with partial stdout `[72]` and partial
stderr `[65]` captured by the channel), the loop body does *not* proceed to
scoring with the partial data: an unbound-local error propagates; and when a
previous stdout binding exists the recorded case keeps none of the partial
stderr — its feedback is `[]`, not the captured `[65]`. -/
theorem ole_claim_false_at_first_case :
    (caseExec FStream.stderr bOleW none).2 = Except.error PyError.unboundLocal ∧
    (¬ ∃ rp, (caseExec FStream.stderr bOleW none).2 = Except.ok rp) ∧
    (caseExec FStream.stderr bOleW (some [])).2 =
      Except.ok ({ flag := 8, feedback := [] }, some []) ∧
    ([] : List Nat) ≠ [65] := by
  refine ⟨rfl, ?_, rfl, by decide⟩
  rintro ⟨rp, h⟩
  simp only [caseExec, bOleW] at h
  exact absurd h (by simp)

/-- Claim C2 amended: On an `OutputLimitExceeded` during the exchange, the
handler discards the captured stderr (it rebinds `proc_error` to the empty
byte string), kills the process, and the `finally` reaps it; `proc_output` is
never rebound, so the case proceeds to scoring with the *previous* case's
stdout when one was bound, and otherwise an unbound-local error propagates out
of the case instead of any scoring. -/
theorem ole_discards_stderr_and_reuses_stale_stdout (rf : FStream)
    (b : ProcBehavior) (tOut tErr out0 : List Nat)
    (hb : b.comm = CommOutcome.ole tOut tErr) :
    (caseExec rf b (some out0)).2 =
      Except.ok ({ flag := b.flag, feedback := feedbackSel rf out0 [] b.resFeedback },
                 some out0) ∧
    (caseExec rf b none).2 = Except.error PyError.unboundLocal ∧
    Event.kill ∈ (caseExec rf b (some out0)).1 ∧
    Event.kill ∈ (caseExec rf b none).1 := by
  rcases b with ⟨comm, flag, resFb⟩
  cases hb
  exact ⟨rfl, rfl, by simp [caseExec], by simp [caseExec]⟩

/-- Claim C2 witness: The amended theorem applied at a concrete output-limit
case: with a previous stdout binding `[66]` the case scores against that stale
stdout; with no previous binding the unbound-local error escapes. -/
theorem ole_discards_witness :
    (caseExec FStream.stdout bOleW (some [66])).2 =
      Except.ok ({ flag := bOleW.flag,
                   feedback := feedbackSel FStream.stdout [66] [] bOleW.resFeedback },
                 some [66]) ∧
    (caseExec FStream.stdout bOleW none).2 = Except.error PyError.unboundLocal := by
  have h := ole_discards_stderr_and_reuses_stale_stdout FStream.stdout bOleW
    [72] [65] [66] rfl
  exact ⟨h.1, h.2.1⟩

/-- Claim C4 counterexample: At the concrete two-case input whose first case's
exchange raises a non-output-limit exception, the loop does not convert it to
a runtime-error verdict and continue: the exception escapes `validateCases`,
so the second case is never validated. -/
theorem exn_aborts_run_at_concrete :
    validateCases FStream.stderr [bExnW, bOkW] =
      Except.error (PyError.uncaught "boom") ∧
    (¬ ∃ rsf, validateCases FStream.stderr [bExnW, bOkW] = Except.ok rsf) := by
  refine ⟨rfl, ?_⟩
  rintro ⟨rsf, h⟩
  rw [show validateCases FStream.stderr [bExnW, bOkW] =
    Except.error (PyError.uncaught "boom") from rfl] at h
  exact absurd h (by simp)

/-- Claim C4 amended: Any exception raised during the exchange other than the
handled `OutputLimitExceeded` runs only the `finally` (the process is reaped)
and then propagates out of the case loop, aborting the validation of the
remaining cases; no runtime-error verdict is synthesized for the case. -/
theorem exn_propagates_after_reap (rf : FStream) (m : String) (b : ProcBehavior)
    (bs : List ProcBehavior) (prevOut : Option (List Nat)) (fl : Nat)
    (hb : b.comm = CommOutcome.exn m) :
    runCasesAux rf prevOut fl (b :: bs) = Except.error (PyError.uncaught m) ∧
    Event.wait ∈ (caseExec rf b prevOut).1 ∧
    Event.verdict ∉ (caseExec rf b prevOut).1 := by
  rcases b with ⟨comm, flag, resFb⟩
  cases hb
  exact ⟨rfl, by simp [caseExec], by simp [caseExec]⟩

/-- Claim C4 witness: The amended theorem applied at the concrete two-case
input: the run aborts with the uncaught exception. -/
theorem exn_propagates_witness :
    runCasesAux FStream.stderr none 0 [bExnW, bOkW] =
      Except.error (PyError.uncaught "boom") :=
  (exn_propagates_after_reap FStream.stderr "boom" bExnW [bOkW] none 0 rfl).1

/-! ## Trailing-whitespace trimming facts for the feedback computation -/

theorem head_dropWhile_false (p : Nat → Bool) :
    ∀ (m : List Nat) (x : Nat), (m.dropWhile p).head? = some x → p x = false := by
  intro m
  induction m with
  | nil => intro x h; simp [List.dropWhile] at h
  | cons a m ih =>
      intro x h
      by_cases hp : p a
      · rw [List.dropWhile_cons, if_pos hp] at h
        exact ih x h
      · rw [List.dropWhile_cons, if_neg hp] at h
        simp only [List.head?_cons, Option.some.injEq] at h
        subst h
        simpa using hp

theorem rstrip_append_ws (l : List Nat) :
    ∃ ws, l = rstrip l ++ ws ∧ ∀ x ∈ ws, isWSByte x = true := by
  refine ⟨(l.reverse.takeWhile isWSByte).reverse, ?_, ?_⟩
  · have h : l.reverse.takeWhile isWSByte ++ l.reverse.dropWhile isWSByte = l.reverse :=
      List.takeWhile_append_dropWhile _ _
    calc l = l.reverse.reverse := (List.reverse_reverse l).symm
      _ = (l.reverse.takeWhile isWSByte ++ l.reverse.dropWhile isWSByte).reverse := by
          rw [h]
      _ = (l.reverse.dropWhile isWSByte).reverse ++ (l.reverse.takeWhile isWSByte).reverse :=
          List.reverse_append _ _
      _ = rstrip l ++ (l.reverse.takeWhile isWSByte).reverse := rfl
  · intro x hx
    exact List.mem_takeWhile_imp (List.mem_reverse.mp hx)

theorem rstrip_getLast_not_ws (l : List Nat) :
    ∀ x, (rstrip l).getLast? = some x → isWSByte x = false := by
  intro x h
  rw [rstrip, List.getLast?_reverse] at h
  exact head_dropWhile_false isWSByte l.reverse x h

/-- Claim C5: The scored case's feedback equals the trailing-whitespace-trimmed
content of the configured feedback stream when that trimmed content is
non-empty, and otherwise equals `result.feedback` — here the canonical textual
description of the case's first-matching flag, as modelled from the spec's
Verdict Model; and `rstrip` really trims exactly trailing whitespace: the
stream splits as trimmed content plus an all-whitespace tail, and the trimmed
content never ends in a whitespace byte. -/
theorem feedback_stream_or_flag_desc (rf : FStream) (out err : List Nat)
    (fs : FlagSet) :
    (rstrip (streamSel rf out err) ≠ [] →
      feedbackSel rf out err (firstCodeDesc fs) = rstrip (streamSel rf out err)) ∧
    (rstrip (streamSel rf out err) = [] →
      feedbackSel rf out err (firstCodeDesc fs) = firstCodeDesc fs) ∧
    (∃ ws, streamSel rf out err = rstrip (streamSel rf out err) ++ ws ∧
      ∀ x ∈ ws, isWSByte x = true) ∧
    (∀ x, (rstrip (streamSel rf out err)).getLast? = some x → isWSByte x = false) := by
  refine ⟨?_, ?_, rstrip_append_ws _, rstrip_getLast_not_ws _⟩
  · intro h; simp [feedbackSel, h]
  · intro h; simp [feedbackSel, h]

/-- Claim C5 witness: Concrete feedback computations: stderr `"A "` trims to
`"A"` and is used verbatim; an empty stream falls back to the canonical
description of the non-zero-exit flag. -/
theorem feedback_stream_or_flag_desc_app :
    feedbackSel FStream.stderr [] [65, 32] (firstCodeDesc fsW) = [65] ∧
    feedbackSel FStream.stdout [] [65] (firstCodeDesc fsW) = firstCodeDesc fsW := by
  constructor
  · have h := (feedback_stream_or_flag_desc FStream.stderr [] [65, 32] fsW).1 (by decide)
    rw [h]; decide
  · exact (feedback_stream_or_flag_desc FStream.stdout [] [65] fsW).2.1 (by decide)

/-- Claim C6: The configuration gate of `validate_problem`: a missing validator
declaration, an empty configuration, an unsupported language, an unsupported
feedback-stream option, and a malformed source declaration each skip the
problem with the neutral return value 0, while an unrecognized contrib-module
identifier (all earlier checks passing, compilation succeeding) returns 1. -/
theorem config_gate_outcomes (sup con : List String) (ok : Bool) (cfg : PConfig) :
    (cfg.hasValidator = false → validateGate sup con ok cfg = GateOutcome.ret 0) ∧
    (cfg.configTruthy = false → validateGate sup con ok cfg = GateOutcome.ret 0) ∧
    (cfg.configTruthy = true → cfg.hasValidator = true →
      cfg.language ∉ sup →
      validateGate sup con ok cfg = GateOutcome.ret 0) ∧
    (cfg.configTruthy = true → cfg.hasValidator = true →
      cfg.language ∈ sup →
      cfg.feedback.getD "stderr" ∉ (["stdout", "stderr"] : List String) →
      validateGate sup con ok cfg = GateOutcome.ret 0) ∧
    (cfg.configTruthy = true → cfg.hasValidator = true →
      cfg.language ∈ sup →
      cfg.feedback.getD "stderr" ∈ (["stdout", "stderr"] : List String) →
      cfg.source = SourceDecl.other →
      validateGate sup con ok cfg = GateOutcome.ret 0) ∧
    (cfg.configTruthy = true → cfg.hasValidator = true →
      cfg.language ∈ sup →
      cfg.feedback.getD "stderr" ∈ (["stdout", "stderr"] : List String) →
      cfg.source ≠ SourceDecl.other → ok = true →
      cfg.contribType.getD "default" ∉ con →
      validateGate sup con ok cfg = GateOutcome.ret 1) := by
  refine ⟨?_, ?_, ?_, ?_, ?_, ?_⟩
  · intro h; simp [validateGate, h]
  · intro h; simp [validateGate, h]
  · intro h1 h2 h3; simp [validateGate, h1, h2, h3]
  · intro h1 h2 h3 h4; simp [validateGate, h1, h2, h3, h4]
  · intro h1 h2 h3 h4 h5; simp [validateGate, h1, h2, h3, h4, h5]
  · intro h1 h2 h3 h4 h5 h6 h7
    cases hs : cfg.source with
    | str s => simp [validateGate, h1, h2, h3, h4, hs, h6, h7]
    | list ls => simp [validateGate, h1, h2, h3, h4, hs, h6, h7]
    | other => exact absurd hs h5

/-- Claim C6 witness: The gate applied to one concrete configuration per
defect. -/
theorem config_gate_outcomes_app :
    validateGate ["PY3"] ["default"] true cfgNoValW = GateOutcome.ret 0 ∧
    validateGate ["PY3"] ["default"] true cfgBadLangW = GateOutcome.ret 0 ∧
    validateGate ["PY3"] ["default"] true cfgBadFbW = GateOutcome.ret 0 ∧
    validateGate ["PY3"] ["default"] true cfgBadSrcW = GateOutcome.ret 0 ∧
    validateGate ["PY3"] ["default"] true cfgBadContribW = GateOutcome.ret 1 := by
  refine ⟨?_, ?_, ?_, ?_, ?_⟩
  · exact (config_gate_outcomes _ _ _ _).1 rfl
  · exact (config_gate_outcomes _ _ _ _).2.2.1 rfl rfl (by decide)
  · exact (config_gate_outcomes _ _ _ _).2.2.2.1 rfl rfl (by decide) (by decide)
  · exact (config_gate_outcomes _ _ _ _).2.2.2.2.1 rfl rfl (by decide) (by decide) rfl
  · exact (config_gate_outcomes _ _ _ _).2.2.2.2.2 rfl rfl (by decide) (by decide)
      (by decide) rfl (by decide)

/-- Claim C8: The time and memory limits of each launch are the once-per-problem
resolved values (validator configuration keys, falling back to the environment
generator defaults), identical across all cases of the problem, and each
case's wall-time limit is its own `wall_time_factor` times the problem's time
limit. -/
theorem limits_resolved_once_wall_scaled (vc : VConfig) (e : JudgeEnv)
    (cases : List TestCase) :
    (∀ p ∈ problemLaunches vc e cases,
        p.time = resolvedTimeLimit vc e ∧ p.memory = resolvedMemoryLimit vc e) ∧
    (∀ pc ∈ (problemLaunches vc e cases).zip cases,
        pc.1.wall_time = pc.2.config.wall_time_factor * resolvedTimeLimit vc e) ∧
    (vc.time = none → resolvedTimeLimit vc e = e.generator_time_limit) ∧
    (∀ t, vc.time = some t → resolvedTimeLimit vc e = t) ∧
    (vc.memory = none → resolvedMemoryLimit vc e = e.generator_memory_limit) ∧
    (∀ m, vc.memory = some m → resolvedMemoryLimit vc e = m) := by
  refine ⟨?_, ?_, ?_, ?_, ?_, ?_⟩
  · intro p hp
    obtain ⟨c, hc, rfl⟩ := List.mem_map.mp hp
    exact ⟨rfl, rfl⟩
  · intro pc hpc
    have hz : (problemLaunches vc e cases).zip cases =
        cases.map (fun c =>
          (launchParamsFor (resolvedTimeLimit vc e) (resolvedMemoryLimit vc e) c, c)) := by
      calc (problemLaunches vc e cases).zip cases
          = (cases.map
              (launchParamsFor (resolvedTimeLimit vc e) (resolvedMemoryLimit vc e))).zip
              (cases.map id) := by rw [List.map_id]; rfl
        _ = cases.map (fun c =>
              (launchParamsFor (resolvedTimeLimit vc e) (resolvedMemoryLimit vc e) c,
               id c)) := List.zip_map' _ _ _
    rw [hz] at hpc
    obtain ⟨c, hc, rfl⟩ := List.mem_map.mp hpc
    rfl
  · intro h; simp [resolvedTimeLimit, h]
  · intro t h; simp [resolvedTimeLimit, h]
  · intro h; simp [resolvedMemoryLimit, h]
  · intro m h; simp [resolvedMemoryLimit, h]

/-- Claim C8 witness: The theorem applied at a one-case problem whose validator
declares no `time` key and an explicit `memory` key. -/
theorem limits_witness :
    pW.time = resolvedTimeLimit vcW envW ∧
    pW.memory = resolvedMemoryLimit vcW envW ∧
    pW.wall_time = caseW.config.wall_time_factor * resolvedTimeLimit vcW envW ∧
    resolvedTimeLimit vcW envW = envW.generator_time_limit ∧
    resolvedMemoryLimit vcW envW = 262144 := by
  have h := limits_resolved_once_wall_scaled vcW envW [caseW]
  have h1 := h.1 pW (List.mem_singleton.mpr rfl)
  have h2 := h.2.1 (pW, caseW) (List.mem_singleton.mpr rfl)
  exact ⟨h1.1, h1.2, h2, h.2.2.1 rfl, h.2.2.2.2.2 262144 rfl⟩

/-- Claim C10: the cap the exchange passes for the stderr stream is the
literal `1048576` for every case — independent of the case's configured
`output_limit_length`, which is passed as the cap of the stdout stream only. -/
theorem stderr_cap_constant (c c' : TestCase) :
    capOfStream c FStream.stderr = 1048576 ∧
    capOfStream c FStream.stderr = capOfStream c' FStream.stderr ∧
    capOfStream c FStream.stdout = c.config.output_limit_length ∧
    (communicateCaps c).errlimit = 1048576 ∧
    (communicateCaps c).outlimit = c.config.output_limit_length :=
  ⟨rfl, rfl, rfl, rfl, rfl⟩

/-- Claim C10 witness: the stderr cap at two concrete cases with different
configured output limits. -/
theorem stderr_cap_constant_app :
    capOfStream (demoCase 1) FStream.stderr = 1048576 ∧
    capOfStream (demoCase 1) FStream.stderr = capOfStream caseW FStream.stderr :=
  ⟨(stderr_cap_constant (demoCase 1) caseW).1, (stderr_cap_constant (demoCase 1) caseW).2.1⟩

/-- Claim C9 witness: the flattening of the demo tree equals its spec-side
numbering. -/
theorem flatten_batch_numbering_app :
    flattenCases demoRaw = numberedFlatten [] demoRaw :=
  (flatten_batch_numbering demoRaw).1

/-- Claim C3 witness: the grouped runs of the demo flattened sequence
concatenate back to the sequence itself. -/
theorem groupby_contiguous_runs_app :
    ((groupRuns Prod.fst (flattenCases demoRaw)).map Prod.snd).flatten =
      flattenCases demoRaw :=
  (groupby_contiguous_runs.1 (flattenCases demoRaw)).1

/-- Claim C7 witness: the reap event occurs on a concrete normal-completion
case. -/
theorem reap_before_verdict_app :
    Event.wait ∈ (caseExec FStream.stderr bOkW none).1 :=
  (reap_before_verdict_all_paths FStream.stderr bOkW none).1

end Validate
